import Mathlib

/-!
Verification development for the go-flink-sql driver: an embedding of the
connector/driver code (`connector.go`) together with spec-modelled versions of
the repository components that live outside `src/` (URI-parameter parsing,
property merging, gateway client construction, operation poller, result pager,
wire value decoder), and theorems settling the specification claims.
-/

namespace FlinkSQL

/-! ### Association-list model of Go `map[string]string`

A Go map is modelled as a list of key/value pairs with unique keys by
construction; `minsert` is `m[k] = v` (replace-or-append), `mlookup` is `m[k]`.
-/

abbrev PropMap := List (String × String)

def mlookup : PropMap → String → Option String
  | [], _ => none
  | (k0, v0) :: m, k => if k0 == k then some v0 else mlookup m k

def minsert : PropMap → String → String → PropMap
  | [], k, v => [(k, v)]
  | (k0, v0) :: m, k, v => if k0 == k then (k, v) :: m else (k0, v0) :: minsert m k v

/-- Go's `for k, v := range es { m[k] = v }`: insert every pair of `es` into `m`. -/
def minsertAll (m : PropMap) (es : List (String × String)) : PropMap :=
  es.foldl (fun acc kv => minsert acc kv.1 kv.2) m

/-- The last binding of `k` in an entry list (later entries win). -/
def lastBind : List (String × String) → String → Option String
  | [], _ => none
  | (k0, v0) :: es, k =>
    match lastBind es k with
    | some v => some v
    | none => if k0 == k then some v0 else none

/-! ### Character-level string cutting and splitting

`cutFirst c s` is Go's `strings.Cut(s, c)` for a one-character separator;
`splitOnChar c s` is Go's `strings.Split(s, c)`.
-/

def cutFirst (c : Char) : List Char → Option (List Char × List Char)
  | [] => none
  | x :: xs =>
    if x == c then some ([], xs)
    else
      match cutFirst c xs with
      | none => none
      | some (a, b) => some (x :: a, b)

def splitOnChar (c : Char) : List Char → List (List Char)
  | [] => [[]]
  | x :: xs =>
    if x == c then [] :: splitOnChar c xs
    else
      match splitOnChar c xs with
      | [] => [[x]]
      | p :: ps => (x :: p) :: ps

/-! ### DSN property parsing and property merging -/

inductive ConfigError
  | missingValue (piece : String)
deriving DecidableEq

def parsePieces : List (List Char) → Except ConfigError (List (String × String))
  | [] => Except.ok []
  | piece :: rest =>
    match cutFirst '=' piece with
    | none => Except.error (ConfigError.missingValue piece.asString)
    | some (k, v) =>
      match parsePieces rest with
      | Except.error e => Except.error e
      | Except.ok tl => Except.ok ((k.asString, v.asString) :: tl)

/-- Modelled from the spec: `parseURIParameters` (repository code not under
`src/`). The query fragment `k1=v1&k2=v2` is split on `&` into `key=value`
pairs; a key with no `=value` part is a configuration error, not ignored. -/
def parseURIParameters (rawQuery : String) : Except ConfigError (List (String × String)) :=
  parsePieces (splitOnChar '&' rawQuery.toList)

/-- Modelled from the spec: `mergeProperties` (repository code not under
`src/`). Session properties derived from the gateway URL's query fragment are
merged with the explicit properties; explicit properties override URL-derived
ones on key collision. A malformed URL query fragment is a configuration
error. -/
def mergeProperties (gatewayURL : String) (explicit : PropMap) :
    Except ConfigError PropMap :=
  match cutFirst '?' gatewayURL.toList with
  | none => Except.ok explicit
  | some (_, rawQuery) =>
    if rawQuery = [] then Except.ok explicit
    else
      match parsePieces (splitOnChar '&' rawQuery) with
      | Except.error e => Except.error e
      | Except.ok urlEntries =>
        Except.ok (minsertAll (minsertAll [] urlEntries) explicit)

/-! ### Connector configuration and options (`connector.go`) -/

inductive HttpClient
  | defaultClient
  | custom (id : Nat)
deriving DecidableEq

structure ConnConfig where
  GatewayURL : String
  Client : HttpClient
  APIVersion : String
  Properties : PropMap
deriving DecidableEq

def WithDefaults : ConnConfig :=
  ⟨"http://localhost:8081", HttpClient.defaultClient, "v3", []⟩

/-- The options of `connector.go`, as the closed set of `ConnOption` values the
package can produce. -/
inductive ConnOption
  | withGatewayURL (gatewayUrl : String)
  | withClient (client : HttpClient)
  | withAPIVersion (apiVersion : String)
  | withProperties (properties : List (String × String))

def applyOpt : ConnOption → ConnConfig → ConnConfig
  | ConnOption.withGatewayURL u, c => { c with GatewayURL := u }
  | ConnOption.withClient cl, c => { c with Client := cl }
  | ConnOption.withAPIVersion v, c => { c with APIVersion := v }
  | ConnOption.withProperties ps, c => { c with Properties := minsertAll c.Properties ps }

structure GErr where
  msg : String
deriving DecidableEq

structure GatewayClientRepr where
  baseURL : String
  httpClient : HttpClient
  apiVersion : String
deriving DecidableEq

/-- Modelled from the spec: `NewClient` (gateway client construction, code not
under `src/`); the spec gives no construction-time failure condition, so it
returns the stateless client built from its three arguments. -/
def NewClient (url : String) (client : HttpClient) (apiVersion : String) :
    Except GErr GatewayClientRepr :=
  Except.ok ⟨url, client, apiVersion⟩

inductive DriverError
  | invalidDSN (e : ConfigError)
  | mergeFailed (e : ConfigError)
  | clientFailed (e : GErr)
  | openSessionFailed (e : GErr)
deriving DecidableEq

structure Connector where
  client : GatewayClientRepr
  sessionHandle : String
  config : ConnConfig
  properties : PropMap
deriving DecidableEq

def NewConnector (options : List ConnOption) : Except DriverError Connector :=
  let cfg := options.foldl (fun c o => applyOpt o c) WithDefaults
  match mergeProperties cfg.GatewayURL cfg.Properties with
  | Except.error e => Except.error (DriverError.mergeFailed e)
  | Except.ok mergedProps =>
    match NewClient cfg.GatewayURL cfg.Client cfg.APIVersion with
    | Except.error e => Except.error (DriverError.clientFailed e)
    | Except.ok flinkClient => Except.ok ⟨flinkClient, "", cfg, mergedProps⟩

/-- Embedding of `sqlDriver.OpenConnector`: cut the DSN at the first `?`; a non-empty query
fragment is parsed into session properties (a parse failure aborts), and the
connector is built from the base URL plus, when non-empty, the parsed
properties. -/
def OpenConnector (dsn : String) : Except DriverError Connector :=
  match cutFirst '?' dsn.toList with
  | none => NewConnector [ConnOption.withGatewayURL dsn]
  | some (trimmed, rawQuery) =>
    if rawQuery = [] then NewConnector [ConnOption.withGatewayURL trimmed.asString]
    else
      match parsePieces (splitOnChar '&' rawQuery) with
      | Except.error e => Except.error (DriverError.invalidDSN e)
      | Except.ok props =>
        if props.length = 0 then NewConnector [ConnOption.withGatewayURL trimmed.asString]
        else
          NewConnector
            [ConnOption.withGatewayURL trimmed.asString, ConnOption.withProperties props]

/-! ### Connect / Close state machine (`connector.Connect`, `connector.Close`)

`connect` and `close` take the result the gateway client would return for the
call they may issue; they return the new connector state, the list of gateway
calls actually issued, and the value/error handed back to the caller.
-/

structure flinkConn where
  client : GatewayClientRepr
  sessionHandle : String
deriving DecidableEq

inductive GatewayCall
  | openSession (properties : PropMap)
  | closeSession (handle : String)
deriving DecidableEq

/-- Embedding of `connector.Connect`: if no session handle is stored (the empty string is
the sentinel), issue `OpenSession` with the connector's merged properties and
store the returned handle; otherwise reuse the stored handle without any
gateway call. -/
def connect (openResult : Except GErr String) (c : Connector) :
    Connector × List GatewayCall × Except DriverError flinkConn :=
  if c.sessionHandle = "" then
    match openResult with
    | Except.error e =>
      (c, [GatewayCall.openSession c.properties],
        Except.error (DriverError.openSessionFailed e))
    | Except.ok h =>
      ({ c with sessionHandle := h }, [GatewayCall.openSession c.properties],
        Except.ok ⟨c.client, h⟩)
  else (c, [], Except.ok ⟨c.client, c.sessionHandle⟩)

/-- Embedding of `connector.Close`: if a session handle is stored, issue `CloseSession` for
it, discarding the gateway's result (`closeResult`); always return no error,
and leave the connector state unchanged. -/
def close (closeResult : Except GErr Unit) (c : Connector) :
    Connector × List GatewayCall × Option DriverError :=
  if c.sessionHandle = "" then (c, [], none)
  else (c, [GatewayCall.closeSession c.sessionHandle], none)

/-! ### Operation poller (modelled from the spec) -/

inductive OpStatus
  | PENDING
  | RUNNING
  | FINISHED
  | ERROR
  | CANCELED
deriving DecidableEq

structure Operation where
  status : OpStatus
  errorMessage : Option String
deriving DecidableEq

inductive PollErr
  | operationFailed (message : Option String)
  | operationCanceled
deriving DecidableEq

def OpStatus.isTerminal : OpStatus → Bool
  | OpStatus.FINISHED => true
  | OpStatus.ERROR => true
  | OpStatus.CANCELED => true
  | _ => false

/-- Modelled from the spec: the Operation Poller (code not under `src/`)
observes successive operation statuses; a non-terminal status continues the
loop, FINISHED terminates successfully, ERROR terminates with
`operationFailed` carrying the error message, CANCELED terminates with
`operationCanceled`. `none` means the finite observation list ended before a
terminal status was seen. -/
def pollLoop : List Operation → Option (Except PollErr Unit)
  | [] => none
  | op :: rest =>
    match op.status with
    | OpStatus.FINISHED => some (Except.ok ())
    | OpStatus.ERROR => some (Except.error (PollErr.operationFailed op.errorMessage))
    | OpStatus.CANCELED => some (Except.error PollErr.operationCanceled)
    | _ => pollLoop rest

/-- The first operation with a terminal status in an observation list. -/
def firstTerminal : List Operation → Option Operation
  | [] => none
  | op :: rest => if op.status.isTerminal then some op else firstTerminal rest

/-! ### Wire value decoder (modelled from the spec) -/

inductive RemoteType
  | integerT
  | intervalT
  | floatingT
  | booleanT
  | characterT
  | dateTimeT
  | binaryT
  | structuredT
  | unknownT (tyName : String)
deriving DecidableEq

structure ColumnMeta where
  name : String
  remoteType : RemoteType
  nullable : Bool
deriving DecidableEq

/-- Wire-format cell values. Floating point and timestamp payloads are carried
as their wire literals, opaquely — no claim depends on their arithmetic. -/
inductive WireValue
  | vnull
  | vint (i : Int)
  | vfloat (lit : String)
  | vbool (b : Bool)
  | vtext (s : String)
  | vtimestamp (lit : String)
  | vbytes (b : List Nat)
deriving DecidableEq

inductive DecodedValue
  | absent
  | int64 (i : Int)
  | float64 (lit : String)
  | boolean (b : Bool)
  | str (s : String)
  | timestamp (lit : String)
  | bytes (b : List Nat)
deriving DecidableEq

inductive DecodeCause
  | nullOnNonNullable
  | typeMismatch
  | unrecognizedType
deriving DecidableEq

structure DecodeError where
  column : String
  remoteType : RemoteType
  cause : DecodeCause
deriving DecidableEq

def decodeTyped (cell : WireValue) (meta : ColumnMeta) :
    Except DecodeError DecodedValue :=
  match meta.remoteType, cell with
  | RemoteType.integerT, WireValue.vint i => Except.ok (DecodedValue.int64 i)
  | RemoteType.intervalT, WireValue.vint i => Except.ok (DecodedValue.int64 i)
  | RemoteType.floatingT, WireValue.vfloat l => Except.ok (DecodedValue.float64 l)
  | RemoteType.booleanT, WireValue.vbool b => Except.ok (DecodedValue.boolean b)
  | RemoteType.characterT, WireValue.vtext s => Except.ok (DecodedValue.str s)
  | RemoteType.dateTimeT, WireValue.vtimestamp l => Except.ok (DecodedValue.timestamp l)
  | RemoteType.binaryT, WireValue.vbytes b => Except.ok (DecodedValue.bytes b)
  | RemoteType.structuredT, WireValue.vbytes b => Except.ok (DecodedValue.bytes b)
  | RemoteType.unknownT _, _ =>
    Except.error ⟨meta.name, meta.remoteType, DecodeCause.unrecognizedType⟩
  | _, _ => Except.error ⟨meta.name, meta.remoteType, DecodeCause.typeMismatch⟩

/-- Modelled from the spec: the Wire Value Decoder (code not under `src/`).
A null marker with `nullable = true` decodes to "absent" regardless of
declared type; a null marker with `nullable = false` fails decode; a non-null
cell is decoded per the declared-type mapping table. -/
def decode (cell : WireValue) (meta : ColumnMeta) : Except DecodeError DecodedValue :=
  match cell with
  | WireValue.vnull =>
    if meta.nullable then Except.ok DecodedValue.absent
    else Except.error ⟨meta.name, meta.remoteType, DecodeCause.nullOnNonNullable⟩
  | _ => decodeTyped cell meta

/-- Modelled from the spec: the wire encoding of a byte sequence for a
BINARY/VARBINARY cell is its raw byte payload. -/
def encodeBinary (b : List Nat) : WireValue :=
  WireValue.vbytes b

/-! ### Result pager (modelled from the spec) -/

abbrev RawRow := List WireValue

structure ResultPage where
  columns : List ColumnMeta
  rows : List RawRow
  nextPageToken : Option String

/-- Modelled from the spec: the Result Pager (code not under `src/`) fetches
the first page with no token and each subsequent page with the previous page's
`nextPageToken`, until a page reports no further token, concatenating the
pages' rows in fetch order. `fetch` is the gateway's `fetchResultPage` keyed by
token; the fuel bounds the number of fetches. -/
def collectRows (fetch : Option String → Option ResultPage) :
    Nat → Option String → Option (List RawRow)
  | 0, _ => none
  | fuel + 1, tok =>
    match fetch tok with
    | none => none
    | some p =>
      match p.nextPageToken with
      | none => some p.rows
      | some t =>
        match collectRows fetch fuel (some t) with
        | none => none
        | some rest => some (p.rows ++ rest)

/-- Predicate `Chain fetch tok ps`: starting from request token `tok`, `fetch` yields
exactly the pages `ps` linked by their `nextPageToken`s, and only the last
page lacks a next-page token. -/
inductive Chain (fetch : Option String → Option ResultPage) :
    Option String → List ResultPage → Prop
  | last (tok : Option String) (p : ResultPage) :
      fetch tok = some p → p.nextPageToken = none → Chain fetch tok [p]
  | step (tok : Option String) (p : ResultPage) (t : String) (ps : List ResultPage) :
      fetch tok = some p → p.nextPageToken = some t →
      Chain fetch (some t) ps → Chain fetch tok (p :: ps)

def concatRows : List ResultPage → List RawRow
  | [] => []
  | p :: ps => p.rows ++ concatRows ps

/-! ### Helper lemmas about the map and parsing primitives -/

theorem mlookup_minsert (m : PropMap) (k0 v0 k : String) :
    mlookup (minsert m k0 v0) k = if k0 == k then some v0 else mlookup m k := by
  induction m with
  | nil => simp [minsert, mlookup]
  | cons hd m ih =>
    obtain ⟨k1, v1⟩ := hd
    by_cases h1 : k1 = k0
    · subst h1
      by_cases h2 : k1 = k
      · subst h2; simp [minsert, mlookup]
      · simp [minsert, mlookup, h2]
    · by_cases h2 : k1 = k
      · subst h2
        have h0 : ¬ (k0 = k1) := fun h => h1 h.symm
        simp [minsert, mlookup, h1, h0]
      · simp [minsert, mlookup, h1, h2, ih]

theorem mlookup_minsertAll (es : List (String × String)) (m : PropMap) (k : String) :
    mlookup (minsertAll m es) k =
      match lastBind es k with
      | some v => some v
      | none => mlookup m k := by
  induction es generalizing m with
  | nil => simp [minsertAll, lastBind]
  | cons hd es ih =>
    obtain ⟨k0, v0⟩ := hd
    have step : minsertAll m ((k0, v0) :: es) = minsertAll (minsert m k0 v0) es := rfl
    rw [step, ih]
    cases hb : lastBind es k with
    | some v => simp [lastBind, hb]
    | none =>
      by_cases h0 : k0 = k
      · subst h0; simp [lastBind, hb, mlookup_minsert]
      · simp [lastBind, hb, h0, mlookup_minsert]

theorem lastBind_some_mem (es : List (String × String)) (k v : String)
    (h : lastBind es k = some v) : k ∈ es.map Prod.fst := by
  induction es with
  | nil => simp [lastBind] at h
  | cons hd es ih =>
    obtain ⟨k0, v0⟩ := hd
    simp only [lastBind] at h
    cases hb : lastBind es k with
    | some w => exact List.mem_cons_of_mem _ (ih (by rw [hb]; rw [hb] at h; exact h))
    | none =>
      rw [hb] at h
      simp only [] at h
      by_cases h0 : k0 = k
      · subst h0; exact List.mem_cons_self _ _
      · simp [h0] at h

theorem lastBind_eq_none_of_not_mem (es : List (String × String)) (k : String)
    (h : k ∉ es.map Prod.fst) : lastBind es k = none := by
  cases hb : lastBind es k with
  | none => rfl
  | some v => exact absurd (lastBind_some_mem es k v hb) h

theorem lastBind_eq_mlookup (es : List (String × String)) (k : String)
    (h : (es.map Prod.fst).Nodup) : lastBind es k = mlookup es k := by
  induction es with
  | nil => simp [lastBind, mlookup]
  | cons hd es ih =>
    obtain ⟨k0, v0⟩ := hd
    simp only [List.map_cons, List.nodup_cons] at h
    by_cases h0 : k0 = k
    · subst h0
      have hn : lastBind es k0 = none := lastBind_eq_none_of_not_mem es k0 h.1
      simp [lastBind, mlookup, hn]
    · simp [lastBind, mlookup, h0, ih h.2]
      cases mlookup es k <;> rfl

theorem cutFirst_eq_none (c : Char) (xs : List Char) (h : c ∉ xs) :
    cutFirst c xs = none := by
  induction xs with
  | nil => rfl
  | cons x xs ih =>
    simp only [List.mem_cons, not_or] at h
    have hx : ¬ (x = c) := fun he => h.1 he.symm
    simp [cutFirst, hx, ih h.2]

theorem cutFirst_append (c : Char) (xs ys : List Char) (h : c ∉ xs) :
    cutFirst c (xs ++ c :: ys) = some (xs, ys) := by
  induction xs with
  | nil => simp [cutFirst]
  | cons x xs ih =>
    simp only [List.mem_cons, not_or] at h
    have hx : ¬ (x = c) := fun he => h.1 he.symm
    simp [cutFirst, hx, ih h.2]

theorem splitOnChar_eq_single (c : Char) (xs : List Char) (h : c ∉ xs) :
    splitOnChar c xs = [xs] := by
  induction xs with
  | nil => rfl
  | cons x xs ih =>
    simp only [List.mem_cons, not_or] at h
    have hx : ¬ (x = c) := fun he => h.1 he.symm
    simp [splitOnChar, hx, ih h.2]

theorem splitOnChar_append (c : Char) (xs ys : List Char) (h : c ∉ xs) :
    splitOnChar c (xs ++ c :: ys) = xs :: splitOnChar c ys := by
  induction xs with
  | nil => simp [splitOnChar]
  | cons x xs ih =>
    simp only [List.mem_cons, not_or] at h
    have hx : ¬ (x = c) := fun he => h.1 he.symm
    simp [splitOnChar, hx, ih h.2]

theorem parsePieces_fail_of_mem (ps : List (List Char)) (piece : List Char)
    (hmem : piece ∈ ps) (hcut : cutFirst '=' piece = none) :
    ∃ e, parsePieces ps = Except.error e := by
  induction ps with
  | nil => simp at hmem
  | cons hd ps ih =>
    rcases List.mem_cons.mp hmem with heq | htl
    · subst heq
      exact ⟨ConfigError.missingValue piece.asString, by simp [parsePieces, hcut]⟩
    · cases hhd : cutFirst '=' hd with
      | none => exact ⟨ConfigError.missingValue hd.asString, by simp [parsePieces, hhd]⟩
      | some kv =>
        obtain ⟨e, he⟩ := ih htl
        exact ⟨e, by simp [parsePieces, hhd, he]⟩

theorem toList_append (s t : String) : (s ++ t).toList = s.toList ++ t.toList := by
  simp [String.toList, String.data_append]

theorem asString_toList (s : String) : s.toList.asString = s := rfl

theorem mergeProperties_no_query (url : String) (explicit : PropMap)
    (h : cutFirst '?' url.toList = none) :
    mergeProperties url explicit = Except.ok explicit := by
  have hd : cutFirst '?' url.data = none := h
  simp [mergeProperties, hd]

theorem mergeProperties_query (url : String) (explicit : PropMap)
    (base rawQuery : List Char) (h : cutFirst '?' url.toList = some (base, rawQuery)) :
    mergeProperties url explicit =
      if rawQuery = [] then Except.ok explicit
      else
        match parsePieces (splitOnChar '&' rawQuery) with
        | Except.error e => Except.error e
        | Except.ok urlEntries =>
          Except.ok (minsertAll (minsertAll [] urlEntries) explicit) := by
  have hd : cutFirst '?' url.data = some (base, rawQuery) := h
  simp [mergeProperties, hd]

theorem toList_eq_nil {s : String} (h : s.toList = []) : s = "" := by
  cases s with
  | mk data =>
    simp only [String.toList] at h
    subst h
    rfl

theorem toList_qmark : ("?" : String).toList = ['?'] := rfl

theorem toList_amp : ("&" : String).toList = ['&'] := rfl

theorem toList_eqsign : ("=" : String).toList = ['='] := rfl

theorem openConnector_query (dsn : String) (trimmed rawQuery : List Char)
    (h : cutFirst '?' dsn.toList = some (trimmed, rawQuery)) (hne : rawQuery ≠ []) :
    OpenConnector dsn =
      match parsePieces (splitOnChar '&' rawQuery) with
      | Except.error e => Except.error (DriverError.invalidDSN e)
      | Except.ok props =>
        if props.length = 0 then NewConnector [ConnOption.withGatewayURL trimmed.asString]
        else
          NewConnector
            [ConnOption.withGatewayURL trimmed.asString, ConnOption.withProperties props] := by
  have hd : cutFirst '?' dsn.data = some (trimmed, rawQuery) := h
  simp [OpenConnector, hd, hne]

/-! ### Concrete sample values used by witnesses and counterexamples -/

def sampleClient : GatewayClientRepr :=
  ⟨"http://localhost:8081", HttpClient.defaultClient, "v3"⟩

/-- A freshly built connector: no session opened yet. -/
def cFresh : Connector := ⟨sampleClient, "", WithDefaults, []⟩

/-- A connector whose first `Connect` stored session handle `"session-1"`. -/
def cOpened : Connector := ⟨sampleClient, "session-1", WithDefaults, []⟩

/-! ### Claim theorems -/

/-- C1 counterexample: with a gateway client whose `OpenSession` call returns
the empty-string handle, the first `Connect` succeeds, yet the next `Connect`
on the resulting connector issues a second `OpenSession` call — so the claim
that every subsequent Connect reuses the session without opening a new one is
false as stated. -/
theorem C1_session_lazy_once_counterexample :
    (connect (Except.ok "") cFresh).2.2 = Except.ok ⟨sampleClient, ""⟩
    ∧ (connect (Except.ok "h2") (connect (Except.ok "") cFresh).1).2.1
        = [GatewayCall.openSession []] :=
  ⟨rfl, rfl⟩

/-- C1 (amended): provided `OpenSession` returns a non-empty session handle
(the empty string being the connector's internal "no session yet" sentinel),
the remote session is created lazily at most once: the first successful
`Connect` issues one `OpenSession` call and stores the handle, and every
`Connect` on a connector that already holds a handle returns a connection
bound to that same handle, issuing no gateway call and leaving the state
unchanged. -/
theorem C1_session_lazy_once_amended :
    (∀ (c : Connector) (h : String), c.sessionHandle = "" → h ≠ "" →
      connect (Except.ok h) c
        = ({ c with sessionHandle := h }, [GatewayCall.openSession c.properties],
            Except.ok ⟨c.client, h⟩))
    ∧ (∀ (c : Connector) (r : Except GErr String), c.sessionHandle ≠ "" →
        connect r c = (c, [], Except.ok ⟨c.client, c.sessionHandle⟩)) := by
  constructor
  · intro c h hfresh _
    simp [connect, hfresh]
  · intro c r hne
    simp [connect, hne]

/-- C1 witness: the amended theorem applied to a fresh connector receiving
handle "session-1", and to the resulting opened connector. -/
theorem C1_session_lazy_once_witness :
    connect (Except.ok "session-1") cFresh
      = (cOpened, [GatewayCall.openSession []], Except.ok ⟨sampleClient, "session-1"⟩)
    ∧ connect (Except.error ⟨"transport down"⟩) cOpened
      = (cOpened, [], Except.ok ⟨sampleClient, "session-1"⟩) :=
  ⟨C1_session_lazy_once_amended.1 cFresh "session-1" rfl (by decide),
   C1_session_lazy_once_amended.2 cOpened (Except.error ⟨"transport down"⟩) (by decide)⟩

/-- C3 counterexample: after `Close` has issued `CloseSession` for handle
"session-1", a further `Connect` on the same connector returns a connection
bound to that same closed handle — the closed handle is reused, refuting the
claim as stated. -/
theorem C3_closed_session_reuse_counterexample :
    (close (Except.ok ()) cOpened).2.1 = [GatewayCall.closeSession "session-1"]
    ∧ (connect (Except.ok "fresh-handle") ((close (Except.ok ()) cOpened).1)).2.2
        = Except.ok ⟨sampleClient, "session-1"⟩ :=
  ⟨rfl, rfl⟩

/-- C3 (amended): `Close` issues `CloseSession` for the stored handle but does
not clear it from the connector: a subsequent `Connect` returns a connection
bound to the same, already-closed handle without opening a new session — not
reusing a connector after closing it is the caller's obligation, not enforced
by the code. -/
theorem C3_closed_handle_not_cleared (c : Connector) (r : Except GErr Unit)
    (rOpen : Except GErr String) (hne : c.sessionHandle ≠ "") :
    (close r c).1 = c
    ∧ (close r c).2.1 = [GatewayCall.closeSession c.sessionHandle]
    ∧ connect rOpen ((close r c).1)
        = (c, [], Except.ok ⟨c.client, c.sessionHandle⟩) := by
  simp [close, connect, hne]

/-- C3 witness: the amended theorem applied to the opened connector. -/
theorem C3_closed_handle_not_cleared_witness :
    (close (Except.ok ()) cOpened).1 = cOpened
    ∧ (close (Except.ok ()) cOpened).2.1 = [GatewayCall.closeSession "session-1"]
    ∧ connect (Except.ok "h2") ((close (Except.ok ()) cOpened).1)
        = (cOpened, [], Except.ok ⟨sampleClient, "session-1"⟩) :=
  C3_closed_handle_not_cleared cOpened (Except.ok ()) (Except.ok "h2") (by decide)

/-- C4: the Operation Poller succeeds exactly when the first terminal status
it observes is FINISHED; when the first terminal status is ERROR it returns
`operationFailed` carrying the operation's error message, and when it is
CANCELED it returns `operationCanceled`. -/
theorem C4_poller_terminal (obs : List Operation) :
    (pollLoop obs = some (Except.ok ()) ↔
      ∃ op, firstTerminal obs = some op ∧ op.status = OpStatus.FINISHED)
    ∧ (∀ op, firstTerminal obs = some op → op.status = OpStatus.ERROR →
        pollLoop obs = some (Except.error (PollErr.operationFailed op.errorMessage)))
    ∧ (∀ op, firstTerminal obs = some op → op.status = OpStatus.CANCELED →
        pollLoop obs = some (Except.error PollErr.operationCanceled)) := by
  induction obs with
  | nil => simp [pollLoop, firstTerminal]
  | cons op rest ih =>
    cases hs : op.status <;>
        simp [pollLoop, firstTerminal, OpStatus.isTerminal, hs, ih] <;>
      exact ⟨ih.2.1, ih.2.2⟩

/-- C4 witness: the poller applied to concrete runs ending in each terminal
status. -/
theorem C4_poller_terminal_witness :
    pollLoop [⟨OpStatus.PENDING, none⟩, ⟨OpStatus.RUNNING, none⟩, ⟨OpStatus.FINISHED, none⟩]
      = some (Except.ok ())
    ∧ pollLoop [⟨OpStatus.RUNNING, none⟩, ⟨OpStatus.ERROR, some "boom"⟩]
        = some (Except.error (PollErr.operationFailed (some "boom")))
    ∧ pollLoop [⟨OpStatus.CANCELED, none⟩]
        = some (Except.error PollErr.operationCanceled) :=
  ⟨(C4_poller_terminal _).1.mpr ⟨⟨OpStatus.FINISHED, none⟩, rfl, rfl⟩,
   (C4_poller_terminal _).2.1 ⟨OpStatus.ERROR, some "boom"⟩ rfl rfl,
   (C4_poller_terminal _).2.2 ⟨OpStatus.CANCELED, none⟩ rfl rfl⟩

/-- C6: a null cell decodes to "absent" for every nullable column of every
declared remote type, and fails with a `DecodeError` recording the null-on-
non-nullable cause (never a silent coercion) for every non-nullable column. -/
theorem C6_null_decoding (meta : ColumnMeta) :
    (meta.nullable = true → decode WireValue.vnull meta = Except.ok DecodedValue.absent)
    ∧ (meta.nullable = false →
        decode WireValue.vnull meta
          = Except.error ⟨meta.name, meta.remoteType, DecodeCause.nullOnNonNullable⟩) := by
  cases h : meta.nullable <;> simp [decode, h]

/-- C6 witness: a null cell on a nullable INT column and on a non-nullable INT
column. -/
theorem C6_null_decoding_witness :
    decode WireValue.vnull ⟨"a", RemoteType.integerT, true⟩ = Except.ok DecodedValue.absent
    ∧ decode WireValue.vnull ⟨"b", RemoteType.integerT, false⟩
        = Except.error ⟨"b", RemoteType.integerT, DecodeCause.nullOnNonNullable⟩ :=
  ⟨(C6_null_decoding ⟨"a", RemoteType.integerT, true⟩).1 rfl,
   (C6_null_decoding ⟨"b", RemoteType.integerT, false⟩).2 rfl⟩

/-- C8: `connector.Close` never propagates a session-close failure: whatever
result the gateway would return for `CloseSession`, `Close` returns no error;
when no session was ever opened it issues no gateway call at all, and
otherwise it issues exactly the one `CloseSession` call. -/
theorem C8_close_swallows_errors (r : Except GErr Unit) (c : Connector) :
    (close r c).2.2 = none
    ∧ (c.sessionHandle = "" → (close r c).2.1 = [])
    ∧ (c.sessionHandle ≠ "" →
        (close r c).2.1 = [GatewayCall.closeSession c.sessionHandle]) := by
  by_cases h : c.sessionHandle = "" <;> simp [close, h]

/-- C8 witness: `Close` on a never-opened connector and on an opened connector
whose `CloseSession` call fails. -/
theorem C8_close_swallows_errors_witness :
    (close (Except.error ⟨"network down"⟩) cOpened).2.2 = none
    ∧ (close (Except.ok ()) cFresh).2.1 = []
    ∧ (close (Except.error ⟨"network down"⟩) cOpened).2.1
        = [GatewayCall.closeSession "session-1"] :=
  ⟨(C8_close_swallows_errors (Except.error ⟨"network down"⟩) cOpened).1,
   (C8_close_swallows_errors (Except.ok ()) cFresh).2.1 rfl,
   (C8_close_swallows_errors (Except.error ⟨"network down"⟩) cOpened).2.2 (by decide)⟩

/-- C9: decoding a BINARY cell whose wire value is the encoding of a byte
sequence `b` yields exactly `b` unchanged (decode of encode is the identity on
the payload), for nullable and non-nullable BINARY columns alike. -/
theorem C9_binary_roundtrip (b : List Nat) (colName : String) (isNullable : Bool) :
    decode (encodeBinary b) ⟨colName, RemoteType.binaryT, isNullable⟩
      = Except.ok (DecodedValue.bytes b) := rfl

/-- C10: `NewConnector` with no options yields the defaults — gateway URL
"http://localhost:8081", API version "v3", the default HTTP client and an
empty property map — and each option overrides only its own configuration
field. -/
theorem C10_connector_defaults :
    NewConnector []
      = Except.ok ⟨⟨"http://localhost:8081", HttpClient.defaultClient, "v3"⟩, "",
          WithDefaults, []⟩
    ∧ (∀ (cfg : ConnConfig) (u : String),
        applyOpt (ConnOption.withGatewayURL u) cfg
          = ⟨u, cfg.Client, cfg.APIVersion, cfg.Properties⟩)
    ∧ (∀ (cfg : ConnConfig) (cl : HttpClient),
        applyOpt (ConnOption.withClient cl) cfg
          = ⟨cfg.GatewayURL, cl, cfg.APIVersion, cfg.Properties⟩)
    ∧ (∀ (cfg : ConnConfig) (v : String),
        applyOpt (ConnOption.withAPIVersion v) cfg
          = ⟨cfg.GatewayURL, cfg.Client, v, cfg.Properties⟩)
    ∧ (∀ (cfg : ConnConfig) (ps : List (String × String)),
        applyOpt (ConnOption.withProperties ps) cfg
          = ⟨cfg.GatewayURL, cfg.Client, cfg.APIVersion, minsertAll cfg.Properties ps⟩) :=
  ⟨rfl, fun _ _ => rfl, fun _ _ => rfl, fun _ _ => rfl, fun _ _ => rfl⟩

/-- C5: for every finite chain of result pages in which only the last page
lacks a next-page token, the Result Pager yields exactly the concatenation of
the pages' row sequences in page order — no row duplicated or dropped, and an
empty page carrying a next-page token does not end the sequence. -/
theorem C5_pager_concat (fetch : Option String → Option ResultPage)
    (tok : Option String) (ps : List ResultPage) (h : Chain fetch tok ps) :
    collectRows fetch ps.length tok = some (concatRows ps) := by
  induction h with
  | last tok p hf hn => simp [collectRows, hf, hn, concatRows]
  | step tok p t ps hf hn hch ih => simp [collectRows, hf, hn, concatRows, ih]

def pageA : ResultPage := ⟨[], [[WireValue.vint 1], [WireValue.vint 2]], some "t1"⟩

/-- An empty page that still carries a next-page token. -/
def pageB : ResultPage := ⟨[], [], some "t2"⟩

def pageC : ResultPage := ⟨[], [[WireValue.vint 3]], none⟩

def fetchEx : Option String → Option ResultPage
  | none => some pageA
  | some s => if s = "t1" then some pageB else if s = "t2" then some pageC else none

/-- C5 witness: the pager over the concrete chain `pageA → pageB → pageC`,
where `pageB` is empty but carries a token, yields the three pages' rows
concatenated in order. -/
theorem C5_pager_concat_witness :
    collectRows fetchEx 3 none
      = some [[WireValue.vint 1], [WireValue.vint 2], [WireValue.vint 3]] := by
  have hch : Chain fetchEx none [pageA, pageB, pageC] :=
    Chain.step none pageA "t1" [pageB, pageC] rfl rfl
      (Chain.step (some "t1") pageB "t2" [pageC] rfl rfl
        (Chain.last (some "t2") pageC rfl rfl))
  exact (C5_pager_concat fetchEx none [pageA, pageB, pageC] hch).trans rfl

/-- C7: applying session property maps is right-biased under key collision
(`{a:1}` then `{a:2}` yields `a:2`); merging entry lists with disjoint key
sets is commutative (as maps, i.e. pointwise in lookup); and `mergeProperties`
lets explicit properties override URL-derived ones — every key the explicit
map binds keeps its explicit value in the merged result. -/
theorem C7_merge_semantics :
    (∀ (cfg : ConnConfig) (a v1 v2 : String),
      mlookup ((applyOpt (ConnOption.withProperties [(a, v2)])
          (applyOpt (ConnOption.withProperties [(a, v1)]) cfg)).Properties) a = some v2)
    ∧ (∀ (m : PropMap) (e1 e2 : List (String × String)),
        (∀ k, k ∈ e1.map Prod.fst → k ∉ e2.map Prod.fst) →
        ∀ k, mlookup (minsertAll (minsertAll m e1) e2) k
            = mlookup (minsertAll (minsertAll m e2) e1) k)
    ∧ (∀ (url : String) (explicit merged : PropMap) (k v : String),
        (explicit.map Prod.fst).Nodup →
        mergeProperties url explicit = Except.ok merged →
        mlookup explicit k = some v →
        mlookup merged k = some v) := by
  refine ⟨?_, ?_, ?_⟩
  · intro cfg a v1 v2
    simp [applyOpt, minsertAll, mlookup_minsert]
  · intro m e1 e2 hdisj k
    rw [mlookup_minsertAll, mlookup_minsertAll, mlookup_minsertAll, mlookup_minsertAll]
    cases h1 : lastBind e1 k with
    | none => cases h2 : lastBind e2 k <;> rfl
    | some v1 =>
      cases h2 : lastBind e2 k with
      | none => rfl
      | some v2 =>
        exact absurd (lastBind_some_mem e2 k v2 h2) (hdisj k (lastBind_some_mem e1 k v1 h1))
  · intro url explicit merged k v hnd hmerge hlook
    have hlb : lastBind explicit k = some v := by
      rw [lastBind_eq_mlookup explicit k hnd]; exact hlook
    cases hc : cutFirst '?' url.toList with
    | none =>
      rw [mergeProperties_no_query url explicit hc] at hmerge
      cases hmerge
      exact hlook
    | some pr =>
      obtain ⟨base, rawQuery⟩ := pr
      rw [mergeProperties_query url explicit base rawQuery hc] at hmerge
      by_cases hq : rawQuery = []
      · rw [if_pos hq] at hmerge
        cases hmerge
        exact hlook
      · rw [if_neg hq] at hmerge
        cases hp : parsePieces (splitOnChar '&' rawQuery) with
        | error e => rw [hp] at hmerge; cases hmerge
        | ok urlEntries =>
          rw [hp] at hmerge
          cases hmerge
          rw [mlookup_minsertAll, hlb]

/-- C7 witness: the three merge properties at concrete inputs — right bias on
key `a`, commutativity of disjoint maps `{a:1}` and `{b:2}`, and an explicit
property overriding the URL-derived value of `opt`. -/
theorem C7_merge_semantics_witness :
    mlookup ((applyOpt (ConnOption.withProperties [("a", "2")])
        (applyOpt (ConnOption.withProperties [("a", "1")]) WithDefaults)).Properties) "a"
      = some "2"
    ∧ mlookup (minsertAll (minsertAll [] [("a", "1")]) [("b", "2")]) "a"
        = mlookup (minsertAll (minsertAll [] [("b", "2")]) [("a", "1")]) "a"
    ∧ (mergeProperties "http://h:1?opt=url" [("opt", "explicit")]
          = Except.ok (minsertAll (minsertAll [] [("opt", "url")]) [("opt", "explicit")])
        → mlookup (minsertAll (minsertAll [] [("opt", "url")]) [("opt", "explicit")]) "opt"
            = some "explicit") :=
  ⟨C7_merge_semantics.1 WithDefaults "a" "1" "2",
   C7_merge_semantics.2.1 [] [("a", "1")] [("b", "2")] (by decide) "a",
   fun hm => C7_merge_semantics.2.2 "http://h:1?opt=url" [("opt", "explicit")] _
     "opt" "explicit" (by decide) hm rfl⟩

/-- C2: for every well-formed connection string `url?k1=v1&k2=v2`,
`OpenConnector` produces a connector whose gateway URL is `url` (the text
before the `?`) and whose property map binds exactly `k1` to `v1` and `k2` to
`v2`; and for every connection string whose non-empty query fragment contains
a key with no `=value` part, `OpenConnector` fails with a configuration
error. -/
theorem C2_openConnector_parsing :
    (∀ url k1 v1 k2 v2 : String,
      '?' ∉ url.toList →
      '&' ∉ k1.toList → '=' ∉ k1.toList → '&' ∉ v1.toList →
      '&' ∉ k2.toList → '=' ∉ k2.toList → '&' ∉ v2.toList →
      k1 ≠ k2 →
      ∃ conn, OpenConnector (url ++ "?" ++ k1 ++ "=" ++ v1 ++ "&" ++ k2 ++ "=" ++ v2)
          = Except.ok conn
        ∧ conn.config.GatewayURL = url
        ∧ mlookup conn.properties k1 = some v1
        ∧ mlookup conn.properties k2 = some v2
        ∧ (∀ k, k ≠ k1 → k ≠ k2 → mlookup conn.properties k = none))
    ∧ (∀ url q : String,
        '?' ∉ url.toList → q ≠ "" →
        (∃ piece ∈ splitOnChar '&' q.toList, '=' ∉ piece) →
        ∃ e, OpenConnector (url ++ "?" ++ q) = Except.error (DriverError.invalidDSN e)) := by
  constructor
  · intro url k1 v1 k2 v2 hqu hak1 hek1 hav1 hak2 hek2 hav2 hk12
    have hae : ('&' : Char) ≠ '=' := by decide
    have hdsn : (url ++ "?" ++ k1 ++ "=" ++ v1 ++ "&" ++ k2 ++ "=" ++ v2).toList
        = url.toList
          ++ '?' :: ((k1.toList ++ '=' :: v1.toList) ++ '&' :: (k2.toList ++ '=' :: v2.toList)) := by
      simp [toList_append, toList_qmark, toList_amp, toList_eqsign]
    have hcutQ : cutFirst '?' ((url ++ "?" ++ k1 ++ "=" ++ v1 ++ "&" ++ k2 ++ "=" ++ v2).toList)
        = some (url.toList,
            (k1.toList ++ '=' :: v1.toList) ++ '&' :: (k2.toList ++ '=' :: v2.toList)) := by
      rw [hdsn]; exact cutFirst_append '?' url.toList _ hqu
    have hAmem : ('&' : Char) ∉ k1.toList ++ '=' :: v1.toList := by
      simp [hae]
      exact ⟨hak1, hav1⟩
    have hBmem : ('&' : Char) ∉ k2.toList ++ '=' :: v2.toList := by
      simp [hae]
      exact ⟨hak2, hav2⟩
    have hsplit :
        splitOnChar '&'
            ((k1.toList ++ '=' :: v1.toList) ++ '&' :: (k2.toList ++ '=' :: v2.toList))
          = [k1.toList ++ '=' :: v1.toList, k2.toList ++ '=' :: v2.toList] := by
      rw [splitOnChar_append '&' _ _ hAmem, splitOnChar_eq_single '&' _ hBmem]
    have hparse : parsePieces [k1.toList ++ '=' :: v1.toList, k2.toList ++ '=' :: v2.toList]
        = Except.ok [(k1, v1), (k2, v2)] := by
      simp only [parsePieces, cutFirst_append '=' k1.toList v1.toList hek1,
        cutFirst_append '=' k2.toList v2.toList hek2, asString_toList]
    have hmergeU : ∀ ex : PropMap, mergeProperties url ex = Except.ok ex :=
      fun ex => mergeProperties_no_query url ex (cutFirst_eq_none '?' url.toList hqu)
    have hQne :
        (k1.toList ++ '=' :: v1.toList) ++ '&' :: (k2.toList ++ '=' :: v2.toList) ≠ [] := by
      simp
    have hk21 : k2 ≠ k1 := fun h => hk12 h.symm
    refine ⟨⟨⟨url, HttpClient.defaultClient, "v3"⟩, "",
        ⟨url, HttpClient.defaultClient, "v3", minsertAll [] [(k1, v1), (k2, v2)]⟩,
        minsertAll [] [(k1, v1), (k2, v2)]⟩, ?_, rfl, ?_, ?_, ?_⟩
    · rw [openConnector_query _ _ _ hcutQ hQne, hsplit, hparse]
      simp only [List.length_cons, List.length_nil]
      rw [if_neg (by decide : ¬ (0 + 1 + 1 = 0))]
      have hads : url.data.asString = url := rfl
      simp [NewConnector, applyOpt, WithDefaults, NewClient, hads, hmergeU]
    · simp [minsertAll, mlookup_minsert, mlookup, hk21]
    · simp [minsertAll, mlookup_minsert, mlookup]
    · intro k hkk1 hkk2
      simp [minsertAll, mlookup_minsert, mlookup, Ne.symm hkk1, Ne.symm hkk2]
  · intro url q hqu hqne hbad
    obtain ⟨piece, hpmem, hpeq⟩ := hbad
    have hq : (url ++ "?" ++ q).toList = url.toList ++ '?' :: q.toList := by
      simp [toList_append, toList_qmark]
    have hcut : cutFirst '?' ((url ++ "?" ++ q).toList) = some (url.toList, q.toList) := by
      rw [hq]; exact cutFirst_append '?' url.toList q.toList hqu
    have hqlne : q.toList ≠ [] := fun h => hqne (toList_eq_nil h)
    obtain ⟨e, he⟩ := parsePieces_fail_of_mem (splitOnChar '&' q.toList) piece hpmem
      (cutFirst_eq_none '=' piece hpeq)
    refine ⟨e, ?_⟩
    rw [openConnector_query _ _ _ hcut hqlne, he]

/-- C2 witness: the DSN of the repository's own driver test,
`http://example.com:8083?opt1=val1&opt2=val2`, and the malformed DSN
`http://example.com:8083?opt1`. -/
theorem C2_openConnector_parsing_witness :
    (∃ conn, OpenConnector "http://example.com:8083?opt1=val1&opt2=val2" = Except.ok conn
      ∧ conn.config.GatewayURL = "http://example.com:8083"
      ∧ mlookup conn.properties "opt1" = some "val1"
      ∧ mlookup conn.properties "opt2" = some "val2"
      ∧ (∀ k, k ≠ "opt1" → k ≠ "opt2" → mlookup conn.properties k = none))
    ∧ (∃ e, OpenConnector "http://example.com:8083?opt1"
        = Except.error (DriverError.invalidDSN e)) :=
  ⟨C2_openConnector_parsing.1 "http://example.com:8083" "opt1" "val1" "opt2" "val2"
      (by decide) (by decide) (by decide) (by decide) (by decide) (by decide) (by decide)
      (by decide),
   C2_openConnector_parsing.2 "http://example.com:8083" "opt1" (by decide) (by decide)
      (by decide)⟩

end FlinkSQL
